import Mathlib

/-!
Shallow embedding of `klippy/extras/adxl345.py` (ADXL345 accelerometer
bulk-sample acquisition).  Host/print timestamps are modelled as exact
rationals; Python integers are `Nat`/`Int`; the in-memory sample log is a
Lean list.  External collaborators (SPI transfers, MCU clock translation,
toolhead time) are modelled as explicit input parameters carrying the
values the code would have obtained from them.
-/

namespace Adxl345

/-- The supported query rates, as the `QUERY_RATES` dict of the source:
rate in Hz paired with the BW_RATE register code. -/
def QUERY_RATES : List (Nat × Nat) :=
  [(25, 0x8), (50, 0x9), (100, 0xa), (200, 0xb), (400, 0xc),
   (800, 0xd), (1600, 0xe), (3200, 0xf)]

/-- `SCALE = 0.004 * 9.80665 * 1000` (4mg/LSB times standard gravity in
mm/s^2), exactly as the source constant, computed in exact rationals. -/
def SCALE : ℚ := 0.004 * 9.80665 * 1000

/-- The mutable per-instance session state of the `ADXL345` Python object:
`query_rate`, `last_tx_time`, the sample log `samples` (pairs of extended
sequence and raw data bytes), `last_sequence`, and the two start epochs. -/
structure ADXL345State where
  query_rate : Nat
  last_tx_time : ℚ
  samples : List (Nat × List Nat)
  last_sequence : Nat
  samples_start1 : ℚ
  samples_start2 : ℚ
deriving DecidableEq, Repr

/-- Sequence extension, the body shared by `_handle_adxl345_data` and
`_convert_sequence`: Python `(last_sequence & ~0xffff) | sequence` clears
the low 16 bits of `last_sequence` (written here as shift down and back up,
the same operation on nonnegative integers) and ors in the raw 16-bit
value; one wrap of `0x10000` is added when the result moved backwards. -/
def convert_sequence (last_sequence sequence : Nat) : Nat :=
  let s := ((last_sequence >>> 16) <<< 16) ||| sequence
  if s < last_sequence then s + 0x10000 else s

/-- `_handle_adxl345_data`: extend the incoming 16-bit sequence, store it
back into `last_sequence`, then append `(sequence, data)` to the sample
log unless 200000 batches are already retained. -/
def handle_adxl345_data (st : ADXL345State) (sequence : Nat)
    (data : List Nat) : ADXL345State :=
  let seq := convert_sequence st.last_sequence sequence
  let st1 := { st with last_sequence := seq }
  if 200000 ≤ st1.samples.length then st1
  else { st1 with samples := st1.samples ++ [(seq, data)] }

/-- Folding `_handle_adxl345_data` over a list of delivered batches
`(sequence, data)`, in arrival order. -/
def ingestAll (st : ADXL345State) (obs : List (Nat × List Nat)) :
    ADXL345State :=
  obs.foldl (fun s o => handle_adxl345_data s o.1 o.2) st

/-- Raw axis decode from `do_end`:
`(d[j*2] | (d[j*2+1] << 8)) - ((d[j*2+1] & 0x80) << 9)`. -/
def decode_raw (lo hi : Nat) : ℤ :=
  ((lo ||| (hi <<< 8) : Nat) : ℤ) - (((hi &&& 0x80) <<< 9 : Nat) : ℤ)

/-- The `sdata` list comprehension of `do_end`: one decoded, scaled value
per consecutive byte pair of the batch payload. -/
def sdataOf (d : List Nat) : List ℚ :=
  (List.range (d.length / 2)).map fun j =>
    ((decode_raw (d.getD (2 * j) 0) (d.getD (2 * j + 1) 0) : ℤ) : ℚ) * SCALE

/-- One iteration of the report loop of `do_end`: the rows
`(seq_time + j * sample_to_time, sdata[3j], sdata[3j+1], sdata[3j+2])`
for `j` ranging over the complete 6-byte groups of the payload, with
`seq_time = start2_time + seq * seq_to_time`. -/
def batchRows (start2_time seq_to_time sample_to_time : ℚ)
    (seq : Nat) (data : List Nat) : List (ℚ × ℚ × ℚ × ℚ) :=
  let sdata := sdataOf data
  let seq_time := start2_time + (seq : ℚ) * seq_to_time
  (List.range (data.length / 6)).map fun (j : ℕ) =>
    (seq_time + (j : ℚ) * sample_to_time,
     sdata.getD (3 * j) 0, sdata.getD (3 * j + 1) 0, sdata.getD (3 * j + 2) 0)

/-- The values `do_end` obtains from its collaborators: the toolhead print
time, the two end clocks already translated to print time, and the
`limit_count`/`sequence` fields of the `adxl345_end` response. -/
structure EndParams where
  print_time : ℚ
  end1_time : ℚ
  end2_time : ℚ
  limit_count : Nat
  sequence : Nat
deriving DecidableEq, Repr

/-- Outcome of `do_end`: early return when not running; the unhandled
Python exceptions (`samples[-1]` on an empty log, division by
`total_count = 0`); or the report with `total_count`, `actual_count` and
the decoded rows. -/
inductive DoEndResult where
  | notRunning
  | crashIndexError
  | crashZeroDivision
  | ok (total_count : ℤ) (actual_count : Nat) (rows : List (ℚ × ℚ × ℚ × ℚ))
deriving DecidableEq, Repr

/-- `do_end`.  State mutations (`last_tx_time`, `query_rate`, clearing
`samples`) happen before the report is computed, exactly as in the source,
so they survive the two crash outcomes. -/
def do_end (st : ADXL345State) (p : EndParams) :
    ADXL345State × DoEndResult :=
  if st.query_rate = 0 then (st, .notRunning)
  else
    let samples := st.samples
    let st1 := { st with last_tx_time := p.print_time, query_rate := 0,
                         samples := [] }
    match samples.getLast? with
    | none => (st1, .crashIndexError)
    | some lastBatch =>
      let end_sequence := convert_sequence st.last_sequence p.sequence
      let total_count : ℤ :=
        ((end_sequence : ℤ) - 1) * 8 + ((lastBatch.2.length / 6 : Nat) : ℤ)
      let start2_time := st.samples_start2
      let total_time : ℚ := p.end2_time - start2_time
      if total_count = 0 then (st1, .crashZeroDivision)
      else
        let sample_to_time : ℚ := total_time / (total_count : ℚ)
        let seq_to_time : ℚ := sample_to_time * 8
        let rows := samples.flatMap fun b =>
          batchRows start2_time seq_to_time sample_to_time b.1 b.2
        (st1, .ok total_count rows.length rows)

/-- The `total_count` value `do_end` computes from a state and end
parameters (0 groups when the sample log is empty, where the source would
instead raise on `samples[-1]`). -/
def totalCountOf (st : ADXL345State) (p : EndParams) : ℤ :=
  ((convert_sequence st.last_sequence p.sequence : ℤ) - 1) * 8 +
    (((st.samples.getLast?.map fun b => b.2.length / 6).getD 0 : Nat) : ℤ)

/-- The values `do_start` obtains from its collaborators: byte 1 of the
DEVID read response, and the toolhead print time. -/
structure StartParams where
  devid : Nat
  print_time : ℚ
deriving DecidableEq, Repr

/-- Outcome of `do_start`: the `Invalid adxl345 id` command error, or
success. -/
inductive StartResult where
  | invalidId (got : Nat)
  | ok
deriving DecidableEq, Repr

/-- `do_start`: raise on a device-ID mismatch before any state change;
otherwise reset the sample log, sequence context and epochs, and record
the new rate and transmit time. -/
def do_start (st : ADXL345State) (rate : Nat) (p : StartParams) :
    ADXL345State × StartResult :=
  if p.devid ≠ 0xe5 then (st, .invalidId p.devid)
  else
    ({ query_rate := rate, last_tx_time := p.print_time, samples := [],
       last_sequence := 0, samples_start1 := p.print_time,
       samples_start2 := p.print_time }, .ok)

/-- Outcome of `cmd_ACCELEROMETER_MEASURE`: the stop path with its
`do_end` outcome and `adxl345 measurements stopped` notice, the
`already running` and `Not a valid adxl345 query rate` errors, the
device-ID mismatch raised inside `do_start`, or a successful start. -/
inductive CmdResult where
  | stopped (r : DoEndResult)
  | alreadyRunning
  | invalidRate
  | deviceMismatch (got : Nat)
  | started
deriving DecidableEq, Repr

/-- `cmd_ACCELEROMETER_MEASURE`: `RATE=0` stops (always responding with
the stopped notice); a nonzero rate while running raises `already
running`; an unsupported rate raises the rate error; otherwise
`do_start` runs. -/
def cmd_ACCELEROMETER_MEASURE (st : ADXL345State) (rate : Nat)
    (sp : StartParams) (ep : EndParams) : ADXL345State × CmdResult :=
  if rate = 0 then
    let r := do_end st ep
    (r.1, .stopped r.2)
  else if st.query_rate ≠ 0 then (st, .alreadyRunning)
  else if (QUERY_RATES.lookup rate).isNone then (st, .invalidRate)
  else
    match do_start st rate sp with
    | (st1, .ok) => (st1, .started)
    | (st1, .invalidId g) => (st1, .deviceMismatch g)

/-- The full decoded report of an active, non-crashing `do_end`: rows of
all retained batches, with the empirically derived sample interval
`(end2_time - samples_start2) / total_count`. -/
def endRows (st : ADXL345State) (p : EndParams) : List (ℚ × ℚ × ℚ × ℚ) :=
  let sample_to_time : ℚ :=
    (p.end2_time - st.samples_start2) / ((totalCountOf st p : ℤ) : ℚ)
  st.samples.flatMap fun b =>
    batchRows st.samples_start2 (sample_to_time * 8) sample_to_time b.1 b.2

/-- The state right after the assignments at the top of an active
`do_end`: transmit time recorded, `query_rate` zeroed, sample log
cleared. -/
def stoppedState (st : ADXL345State) (p : EndParams) : ADXL345State :=
  { st with last_tx_time := p.print_time, query_rate := 0, samples := [] }

/-- The 13-bit sign-extension rule as the specification words it (not the
source): the 16-bit little-endian value has its natural 16-bit sign
contribution masked off and bit 12 is instead treated as the sign bit. -/
def decode_raw_claim13 (lo hi : Nat) : ℤ :=
  let v := lo ||| (hi <<< 8)
  ((v &&& 0x0fff : Nat) : ℤ) - (if v.testBit 12 then 0x1000 else 0)

/-- The extended sequence values returned (and stored) by successive calls
of `_handle_adxl345_data`, one per delivered batch, in delivery order. -/
def seqTrace (st : ADXL345State) : List (Nat × List Nat) → List Nat
  | [] => []
  | o :: rest =>
    let st1 := handle_adxl345_data st o.1 o.2
    st1.last_sequence :: seqTrace st1 rest

/-- Pure fold of the sequence-extension step over the raw sequence fields
of a batch list: the value `last_sequence` would take if every batch were
processed with no interference from the sample-log cap. -/
def foldExtend (last : Nat) (obs : List (Nat × List Nat)) : Nat :=
  obs.foldl (fun l o => convert_sequence l o.1) last

/-! Bridging lemmas from the bitwise operations of the source to plain
arithmetic, and basic facts about the ingest handler. -/

theorem lor_shiftLeft_eq_add (a b k : Nat) (hb : b < 2 ^ k) :
    (a <<< k) ||| b = 2 ^ k * a + b := by
  rw [Nat.shiftLeft_eq, Nat.mul_comm, ← Nat.mul_add_lt_is_or hb]

theorem convert_sequence_arith (last raw : Nat) (h : raw < 65536) :
    convert_sequence last raw =
      if 65536 * (last / 65536) + raw < last
      then 65536 * (last / 65536) + raw + 65536
      else 65536 * (last / 65536) + raw := by
  have hb : raw < 2 ^ 16 := by
    rw [show (2 : ℕ) ^ 16 = 65536 by norm_num]; exact h
  have e : ((last >>> 16) <<< 16) ||| raw = 65536 * (last / 65536) + raw := by
    rw [Nat.shiftRight_eq_div_pow, lor_shiftLeft_eq_add _ _ 16 hb]
    norm_num
  simp only [convert_sequence]
  rw [e]

theorem le_convert_sequence (last raw : Nat) (h : raw < 65536) :
    last ≤ convert_sequence last raw := by
  rw [convert_sequence_arith last raw h]
  split <;> omega

theorem handle_last_sequence (st : ADXL345State) (raw : Nat) (d : List Nat) :
    (handle_adxl345_data st raw d).last_sequence
      = convert_sequence st.last_sequence raw := by
  simp only [handle_adxl345_data]
  split <;> rfl

theorem ingestAll_last_sequence (obs : List (Nat × List Nat)) :
    ∀ st : ADXL345State,
      (ingestAll st obs).last_sequence = foldExtend st.last_sequence obs := by
  induction obs with
  | nil => intro st; rfl
  | cons o rest ih =>
    intro st
    show (ingestAll (handle_adxl345_data st o.1 o.2) rest).last_sequence = _
    rw [ih, handle_last_sequence]
    rfl

theorem chain_le_seqTrace (obs : List (Nat × List Nat)) :
    ∀ st : ADXL345State, (∀ o ∈ obs, o.1 < 65536) →
      List.Chain (· ≤ ·) st.last_sequence (seqTrace st obs) := by
  induction obs with
  | nil => intro st _; exact List.Chain.nil
  | cons o rest ih =>
    intro st hall
    have h1 : o.1 < 65536 := hall o (List.mem_cons_self o rest)
    have hle : st.last_sequence
        ≤ (handle_adxl345_data st o.1 o.2).last_sequence := by
      rw [handle_last_sequence]
      exact le_convert_sequence _ _ h1
    exact List.Chain.cons hle
      (ih _ fun x hx => hall x (List.mem_cons_of_mem o hx))

theorem handle_samples_of_lt (st : ADXL345State) (raw : Nat) (d : List Nat)
    (hlt : st.samples.length < 200000) :
    (handle_adxl345_data st raw d).samples
      = st.samples ++ [(convert_sequence st.last_sequence raw, d)] := by
  simp only [handle_adxl345_data]
  split
  · next hc => exact absurd hc (Nat.not_le.mpr hlt)
  · rfl

theorem handle_samples_of_full (st : ADXL345State) (raw : Nat) (d : List Nat)
    (hfull : 200000 ≤ st.samples.length) :
    (handle_adxl345_data st raw d).samples = st.samples := by
  simp only [handle_adxl345_data]
  split
  · rfl
  · next hc => exact absurd hfull hc

theorem ingestAll_samples_map (obs : List (Nat × List Nat)) :
    ∀ st : ADXL345State, st.samples.length ≤ 200000 →
      (ingestAll st obs).samples.map Prod.snd
        = st.samples.map Prod.snd
          ++ (obs.map Prod.snd).take (200000 - st.samples.length) := by
  induction obs with
  | nil => intro st h; simp [ingestAll]
  | cons o rest ih =>
    intro st h
    show (ingestAll (handle_adxl345_data st o.1 o.2) rest).samples.map
        Prod.snd = _
    by_cases hlt : st.samples.length < 200000
    · have hs := handle_samples_of_lt st o.1 o.2 hlt
      have hlen : (handle_adxl345_data st o.1 o.2).samples.length
          = st.samples.length + 1 := by
        rw [hs]; simp
      rw [ih _ (by omega), hlen, hs]
      obtain ⟨k, hk⟩ : ∃ k, 200000 - st.samples.length = k + 1 :=
        ⟨200000 - st.samples.length - 1, by omega⟩
      have hk2 : 200000 - (st.samples.length + 1) = k := by omega
      rw [hk2, List.map_cons, hk, List.take_succ_cons, List.map_append]
      simp
    · have hs := handle_samples_of_full st o.1 o.2 (by omega)
      have h0 : 200000 - st.samples.length = 0 := by omega
      rw [ih _ (by rw [hs]; omega), hs, h0]
      simp [h0]

/-- C3: the sequence reconstructor returns the candidate
`(last_sequence with its low 16 bits cleared) + raw16` when the candidate
has not moved backwards, and the candidate plus exactly one wrap of
`0x10000` otherwise; and at ingestion time `_handle_adxl345_data` stores
the result back into `last_sequence` before the next observation. -/
theorem C3_sequence_reconstructor (st : ADXL345State) (raw : Nat)
    (d : List Nat) (h : raw < 65536) :
    (st.last_sequence ≤ 65536 * (st.last_sequence / 65536) + raw →
       convert_sequence st.last_sequence raw
         = 65536 * (st.last_sequence / 65536) + raw) ∧
    (65536 * (st.last_sequence / 65536) + raw < st.last_sequence →
       convert_sequence st.last_sequence raw
         = 65536 * (st.last_sequence / 65536) + raw + 65536) ∧
    (handle_adxl345_data st raw d).last_sequence
      = convert_sequence st.last_sequence raw := by
  refine ⟨?_, ?_, handle_last_sequence st raw d⟩
  · intro hle
    rw [convert_sequence_arith st.last_sequence raw h, if_neg (by omega)]
  · intro hlt
    rw [convert_sequence_arith st.last_sequence raw h, if_pos hlt]

/-- Witness for C3: `last_sequence = 70000`, raw value `5` (a wrap). -/
theorem C3_witness :
    5 < 65536 ∧
    ((70000 ≤ 65536 * (70000 / 65536) + 5 →
        convert_sequence 70000 5 = 65536 * (70000 / 65536) + 5) ∧
     (65536 * (70000 / 65536) + 5 < 70000 →
        convert_sequence 70000 5 = 65536 * (70000 / 65536) + 5 + 65536) ∧
     (handle_adxl345_data ⟨0, 0, [], 70000, 0, 0⟩ 5 []).last_sequence
       = convert_sequence 70000 5) :=
  ⟨by decide, C3_sequence_reconstructor ⟨0, 0, [], 70000, 0, 0⟩ 5 [] (by decide)⟩

/-- C4: for every list of batches carrying 16-bit raw sequence values fed
to the ingest handler, the successive returned extended sequence values
are non-decreasing (with no assumption on how the raw values move). -/
theorem C4_monotonic_trace (st : ADXL345State) (obs : List (Nat × List Nat))
    (h : ∀ o ∈ obs, o.1 < 65536) :
    List.Chain' (· ≤ ·) (seqTrace st obs) := by
  have h0 : List.Chain' (· ≤ ·) (st.last_sequence :: seqTrace st obs) :=
    chain_le_seqTrace obs st h
  exact h0.tail

/-- Witness for C4 on the raw sequence values `5` then `3` (one wrap). -/
theorem C4_witness :
    (∀ o ∈ [((5 : Nat), ([] : List Nat)), (3, [])], o.1 < 65536) ∧
    List.Chain' (· ≤ ·) (seqTrace ⟨0, 0, [], 0, 0, 0⟩ [(5, []), (3, [])]) :=
  ⟨by decide, C4_monotonic_trace ⟨0, 0, [], 0, 0, 0⟩ [(5, []), (3, [])]
    (by decide)⟩

/-- C9: even when the 200000-batch cap drops the incoming batch, the
sequence context `last_sequence` is still updated with the batch's
extended sequence, and the context after any batch list is the pure fold
of the extension step, unaffected by the cap. -/
theorem C9_context_advances_on_drop (st : ADXL345State) (raw : Nat)
    (d : List Nat) (hfull : 200000 ≤ st.samples.length) :
    (handle_adxl345_data st raw d).samples = st.samples ∧
    (handle_adxl345_data st raw d).last_sequence
      = convert_sequence st.last_sequence raw ∧
    ∀ obs : List (Nat × List Nat),
      (ingestAll st obs).last_sequence = foldExtend st.last_sequence obs := by
  refine ⟨?_, handle_last_sequence st raw d,
    fun obs => ingestAll_last_sequence obs st⟩
  simp only [handle_adxl345_data]
  split
  · rfl
  · next hc => exact absurd hfull hc

/-- Witness for C9 at a state already holding 200000 batches. -/
theorem C9_witness :
    200000 ≤ (List.replicate 200000 ((0 : Nat), ([] : List Nat))).length ∧
    ((handle_adxl345_data ⟨100, 0, List.replicate 200000 (0, []), 0, 0, 0⟩
        7 []).samples = List.replicate 200000 (0, []) ∧
     (handle_adxl345_data ⟨100, 0, List.replicate 200000 (0, []), 0, 0, 0⟩
        7 []).last_sequence = convert_sequence 0 7 ∧
     ∀ obs : List (Nat × List Nat),
       (ingestAll ⟨100, 0, List.replicate 200000 (0, []), 0, 0, 0⟩
          obs).last_sequence = foldExtend 0 obs) :=
  ⟨by simp only [List.length_replicate]; exact Nat.le_refl 200000,
   C9_context_advances_on_drop ⟨100, 0, List.replicate 200000 (0, []), 0, 0, 0⟩
     7 []
     (by show (200000 : Nat) ≤ (List.replicate 200000
           ((0 : Nat), ([] : List Nat))).length
         simp only [List.length_replicate]
         exact Nat.le_refl 200000)⟩

/-- C6: a push below the 200000-batch cap appends the new batch at the
end, leaving the already-stored entries as an unchanged prefix; a push at
the cap is silently dropped; and ingesting 200001 batches from an empty
log retains exactly the payloads of the first 200000, in arrival order. -/
theorem C6_buffer_cap (obs : List (Nat × List Nat))
    (hlen : obs.length = 200001) :
    (∀ (s : ADXL345State) (raw : Nat) (d : List Nat),
       s.samples.length < 200000 →
         (handle_adxl345_data s raw d).samples
           = s.samples ++ [(convert_sequence s.last_sequence raw, d)]) ∧
    (∀ (s : ADXL345State) (raw : Nat) (d : List Nat),
       s.samples.length = 200000 →
         (handle_adxl345_data s raw d).samples = s.samples) ∧
    ∀ st : ADXL345State, st.samples = [] →
      (ingestAll st obs).samples.length = 200000 ∧
      (ingestAll st obs).samples.map Prod.snd
        = (obs.map Prod.snd).take 200000 := by
  refine ⟨fun s raw d h => handle_samples_of_lt s raw d h,
          fun s raw d h => handle_samples_of_full s raw d (by omega),
          fun st hempty => ?_⟩
  have hmap := ingestAll_samples_map obs st (by rw [hempty]; simp)
  rw [hempty] at hmap
  simp only [List.map_nil, List.nil_append, List.length_nil,
    Nat.sub_zero] at hmap
  refine ⟨?_, hmap⟩
  have hlen2 := congrArg List.length hmap
  rw [List.length_map, List.length_take, List.length_map, hlen] at hlen2
  omega

/-- Witness for C6: 200001 identical batches pushed into an empty log. -/
theorem C6_witness :
    (List.replicate 200001 ((0 : Nat), ([] : List Nat))).length = 200001 ∧
    ((∀ (s : ADXL345State) (raw : Nat) (d : List Nat),
        s.samples.length < 200000 →
          (handle_adxl345_data s raw d).samples
            = s.samples ++ [(convert_sequence s.last_sequence raw, d)]) ∧
     (∀ (s : ADXL345State) (raw : Nat) (d : List Nat),
        s.samples.length = 200000 →
          (handle_adxl345_data s raw d).samples = s.samples) ∧
     ∀ st : ADXL345State, st.samples = [] →
       (ingestAll st (List.replicate 200001 (0, []))).samples.length
         = 200000 ∧
       (ingestAll st (List.replicate 200001 (0, []))).samples.map Prod.snd
         = ((List.replicate 200001
              ((0 : Nat), ([] : List Nat))).map Prod.snd).take 200000) :=
  ⟨by simp only [List.length_replicate],
   C6_buffer_cap _ (by simp only [List.length_replicate])⟩

/-- C7: from Idle (`query_rate = 0`) the stop command is a no-op success
reported with the stopped notice; from Streaming a start command fails
with the already-running error and leaves the session state — sample log,
sequence context and epochs included — completely unchanged. -/
theorem C7_state_machine (st : ADXL345State) (rate : Nat)
    (sp : StartParams) (ep : EndParams) :
    (st.query_rate = 0 →
       cmd_ACCELEROMETER_MEASURE st 0 sp ep
         = (st, CmdResult.stopped DoEndResult.notRunning)) ∧
    (st.query_rate ≠ 0 → rate ≠ 0 →
       cmd_ACCELEROMETER_MEASURE st rate sp ep
         = (st, CmdResult.alreadyRunning)) := by
  constructor
  · intro h0
    simp [cmd_ACCELEROMETER_MEASURE, do_end, h0]
  · intro hrun hrate
    simp [cmd_ACCELEROMETER_MEASURE, hrun, hrate]

/-- Witness for C7: an Idle state for stop, a Streaming state for start. -/
theorem C7_witness :
    cmd_ACCELEROMETER_MEASURE ⟨0, 0, [], 0, 0, 0⟩ 0 ⟨0xe5, 0⟩ ⟨0, 0, 0, 0, 0⟩
      = (⟨0, 0, [], 0, 0, 0⟩, CmdResult.stopped DoEndResult.notRunning) ∧
    cmd_ACCELEROMETER_MEASURE ⟨100, 0, [(3, [])], 5, 1, 2⟩ 50 ⟨0xe5, 0⟩
        ⟨0, 0, 0, 0, 0⟩
      = (⟨100, 0, [(3, [])], 5, 1, 2⟩, CmdResult.alreadyRunning) :=
  ⟨(C7_state_machine ⟨0, 0, [], 0, 0, 0⟩ 50 ⟨0xe5, 0⟩ ⟨0, 0, 0, 0, 0⟩).1 rfl,
   (C7_state_machine ⟨100, 0, [(3, [])], 5, 1, 2⟩ 50 ⟨0xe5, 0⟩
      ⟨0, 0, 0, 0, 0⟩).2 (by decide) (by decide)⟩

/-- C8: a start from Idle that fails — unsupported rate, or device-ID
byte different from 0xE5 — surfaces that error and returns the state
unchanged, so the system stays Idle with its buffer, sequence context,
epochs and query rate intact. -/
theorem C8_start_failures (st : ADXL345State) (rate : Nat)
    (sp : StartParams) (ep : EndParams) (hidle : st.query_rate = 0)
    (hrate : rate ≠ 0) :
    ((QUERY_RATES.lookup rate).isNone = true →
       cmd_ACCELEROMETER_MEASURE st rate sp ep
         = (st, CmdResult.invalidRate)) ∧
    ((QUERY_RATES.lookup rate).isNone = false → sp.devid ≠ 0xe5 →
       cmd_ACCELEROMETER_MEASURE st rate sp ep
         = (st, CmdResult.deviceMismatch sp.devid)) := by
  constructor
  · intro hnone
    simp [cmd_ACCELEROMETER_MEASURE, hidle, hrate, hnone]
  · intro hsome hdev
    simp [cmd_ACCELEROMETER_MEASURE, do_start, hidle, hrate, hsome, hdev]

/-- Witness for C8: rate 60 is unsupported; at the supported rate 100 a
device-ID byte of 0x00 is rejected. -/
theorem C8_witness :
    cmd_ACCELEROMETER_MEASURE ⟨0, 0, [], 0, 0, 0⟩ 60 ⟨0xe5, 0⟩ ⟨0, 0, 0, 0, 0⟩
      = (⟨0, 0, [], 0, 0, 0⟩, CmdResult.invalidRate) ∧
    cmd_ACCELEROMETER_MEASURE ⟨0, 0, [], 0, 0, 0⟩ 100 ⟨0, 0⟩ ⟨0, 0, 0, 0, 0⟩
      = (⟨0, 0, [], 0, 0, 0⟩, CmdResult.deviceMismatch 0) :=
  ⟨(C8_start_failures ⟨0, 0, [], 0, 0, 0⟩ 60 ⟨0xe5, 0⟩ ⟨0, 0, 0, 0, 0⟩ rfl
      (by decide)).1 (by decide),
   (C8_start_failures ⟨0, 0, [], 0, 0, 0⟩ 100 ⟨0, 0⟩ ⟨0, 0, 0, 0, 0⟩ rfl
      (by decide)).2 (by decide) (by decide)⟩

/-- C10: `do_end` never writes back to the sequence context or to the
epochs: whatever the state and end parameters, `last_sequence`,
`samples_start1` and `samples_start2` are unchanged, so only the sample
log, `query_rate` and `last_tx_time` can be modified by a stop, and the
stop-time sequence conversion is purely functional. -/
theorem C10_stop_frame (st : ADXL345State) (p : EndParams) :
    (do_end st p).1.last_sequence = st.last_sequence ∧
    (do_end st p).1.samples_start1 = st.samples_start1 ∧
    (do_end st p).1.samples_start2 = st.samples_start2 := by
  simp only [do_end]
  split
  · exact ⟨rfl, rfl, rfl⟩
  · split
    · exact ⟨rfl, rfl, rfl⟩
    · split
      · exact ⟨rfl, rfl, rfl⟩
      · exact ⟨rfl, rfl, rfl⟩

theorem do_end_fst_of_running (st : ADXL345State) (p : EndParams)
    (hrun : st.query_rate ≠ 0) : (do_end st p).1 = stoppedState st p := by
  simp only [do_end, if_neg hrun]
  split
  · rfl
  · split <;> rfl

theorem do_end_eq_ok (st : ADXL345State) (p : EndParams)
    (hrun : st.query_rate ≠ 0) (b : Nat × List Nat)
    (hgl : st.samples.getLast? = some b) (h0 : totalCountOf st p ≠ 0) :
    do_end st p
      = (stoppedState st p,
         DoEndResult.ok (totalCountOf st p) (endRows st p).length
           (endRows st p)) := by
  have htc : totalCountOf st p
      = ((convert_sequence st.last_sequence p.sequence : ℤ) - 1) * 8
        + ((b.2.length / 6 : Nat) : ℤ) := by
    simp [totalCountOf, hgl]
  have h0x : ¬ (((convert_sequence st.last_sequence p.sequence : ℤ) - 1) * 8
      + ((b.2.length / 6 : Nat) : ℤ) = 0) := by rw [← htc]; exact h0
  simp only [do_end, if_neg hrun, hgl, if_neg h0x, endRows, stoppedState,
    ← htc]
  rw [if_neg h0]

theorem do_end_snd_of_some (st : ADXL345State) (p : EndParams)
    (hrun : st.query_rate ≠ 0) (b : Nat × List Nat)
    (hgl : st.samples.getLast? = some b) (h0 : totalCountOf st p ≠ 0) :
    ∃ rows : List (ℚ × ℚ × ℚ × ℚ),
      (do_end st p).2
        = DoEndResult.ok (totalCountOf st p) rows.length rows :=
  ⟨endRows st p, by rw [do_end_eq_ok st p hrun b hgl h0]⟩

/-- C5 (amended): stopping an active stream produces no distinguished
`InsufficientSamples` result; instead the code raises an unhandled
IndexError exactly when the sample log is empty, and reaches the division
by `total_count` with `total_count = 0` (ZeroDivisionError) exactly when
the log is nonempty and `total_count` is zero.  The log is cleared and
`query_rate` zeroed in every case (the session ends even on a crash), no
decoded samples are produced in the failure cases, and a successful stop
implies `total_count ≠ 0`. -/
theorem C5_crash_semantics (st : ADXL345State) (p : EndParams)
    (hrun : st.query_rate ≠ 0) :
    (do_end st p).1.samples = [] ∧ (do_end st p).1.query_rate = 0 ∧
    ((do_end st p).2 = DoEndResult.crashIndexError ↔ st.samples = []) ∧
    ((do_end st p).2 = DoEndResult.crashZeroDivision ↔
       st.samples ≠ [] ∧ totalCountOf st p = 0) ∧
    (∀ tc ac rows, (do_end st p).2 = DoEndResult.ok tc ac rows →
       tc = totalCountOf st p ∧ tc ≠ 0) := by
  have hfst := do_end_fst_of_running st p hrun
  rcases hgl : st.samples.getLast? with _ | b
  · have hemp : st.samples = [] := List.getLast?_eq_none_iff.mp hgl
    have hde : do_end st p
        = (stoppedState st p, DoEndResult.crashIndexError) := by
      simp only [do_end, if_neg hrun, hgl]
      rfl
    rw [hde]
    refine ⟨rfl, rfl, by simp [hemp], by simp [hemp], ?_⟩
    intro tc ac rows h
    exact absurd h (by simp)
  · have hne : st.samples ≠ [] := by
      intro he; rw [he] at hgl; simp at hgl
    by_cases h0 : totalCountOf st p = 0
    · have htc : totalCountOf st p
          = ((convert_sequence st.last_sequence p.sequence : ℤ) - 1) * 8
            + ((b.2.length / 6 : Nat) : ℤ) := by
        simp [totalCountOf, hgl]
      have h0x : ((convert_sequence st.last_sequence p.sequence : ℤ) - 1) * 8
          + ((b.2.length / 6 : Nat) : ℤ) = 0 := by rw [← htc]; exact h0
      have hde : do_end st p
          = (stoppedState st p, DoEndResult.crashZeroDivision) := by
        simp only [do_end, if_neg hrun, hgl, if_pos h0x]
        rfl
      rw [hde]
      refine ⟨rfl, rfl, by simp [hne], by simp [hne, h0], ?_⟩
      intro tc ac rows h
      exact absurd h (by simp)
    · obtain ⟨rows, hsnd⟩ := do_end_snd_of_some st p hrun b hgl h0
      refine ⟨by rw [hfst]; rfl, by rw [hfst]; rfl, ?_, ?_, ?_⟩
      · rw [hsnd]; simp [hne]
      · rw [hsnd]; simp [h0]
      · intro tc ac rows2 h
        rw [hsnd] at h
        simp only [DoEndResult.ok.injEq] at h
        refine ⟨h.1.symm, ?_⟩
        rw [← h.1]
        exact h0

/-- C5 counterexample: a stop of an active stream whose only retained
batch is empty and whose final extended sequence is 1 has
`total_count = 0`, and the code reaches the division by zero rather than
returning an `InsufficientSamples` failure. -/
theorem C5_counterexample :
    (do_end ⟨100, 0, [(0, [])], 0, 0, 0⟩ ⟨0, 0, 4, 0, 1⟩).2
      = DoEndResult.crashZeroDivision ∧
    totalCountOf ⟨100, 0, [(0, [])], 0, 0, 0⟩ ⟨0, 0, 4, 0, 1⟩ = 0 := by
  constructor <;> rfl

/-- Witness for C5 (amended) at an active state with one one-sample
batch, where the stop succeeds and `total_count = 1`. -/
theorem C5_witness :
    (100 : Nat) ≠ 0 ∧
    ((do_end ⟨100, 0, [(0, [0, 0, 0, 0, 0, 0])], 0, 0, 0⟩
        ⟨20, 14, 14, 0, 1⟩).1.samples = [] ∧
     (do_end ⟨100, 0, [(0, [0, 0, 0, 0, 0, 0])], 0, 0, 0⟩
        ⟨20, 14, 14, 0, 1⟩).1.query_rate = 0 ∧
     ((do_end ⟨100, 0, [(0, [0, 0, 0, 0, 0, 0])], 0, 0, 0⟩
         ⟨20, 14, 14, 0, 1⟩).2 = DoEndResult.crashIndexError ↔
        ([((0 : Nat), [0, 0, 0, 0, 0, 0])]
          : List (Nat × List Nat)) = []) ∧
     ((do_end ⟨100, 0, [(0, [0, 0, 0, 0, 0, 0])], 0, 0, 0⟩
         ⟨20, 14, 14, 0, 1⟩).2 = DoEndResult.crashZeroDivision ↔
        ([((0 : Nat), [0, 0, 0, 0, 0, 0])] : List (Nat × List Nat)) ≠ [] ∧
        totalCountOf ⟨100, 0, [(0, [0, 0, 0, 0, 0, 0])], 0, 0, 0⟩
          ⟨20, 14, 14, 0, 1⟩ = 0) ∧
     ∀ tc ac rows,
       (do_end ⟨100, 0, [(0, [0, 0, 0, 0, 0, 0])], 0, 0, 0⟩
          ⟨20, 14, 14, 0, 1⟩).2 = DoEndResult.ok tc ac rows →
         tc = totalCountOf ⟨100, 0, [(0, [0, 0, 0, 0, 0, 0])], 0, 0, 0⟩
                ⟨20, 14, 14, 0, 1⟩ ∧ tc ≠ 0) :=
  ⟨by decide,
   C5_crash_semantics ⟨100, 0, [(0, [0, 0, 0, 0, 0, 0])], 0, 0, 0⟩
     ⟨20, 14, 14, 0, 1⟩ (by decide)⟩

theorem lor_byte_eq_add (lo hi : Nat) (hlo : lo < 256) :
    (lo ||| (hi <<< 8) : Nat) = lo + 256 * hi := by
  have hb : lo < 2 ^ 8 := by
    rw [show (2 : ℕ) ^ 8 = 256 by norm_num]; exact hlo
  rw [Nat.lor_comm, lor_shiftLeft_eq_add hi lo 8 hb,
    show (2 : ℕ) ^ 8 = 256 by norm_num]
  omega

theorem and_128_eq (hi : Nat) (hhi : hi < 256) :
    (hi &&& 0x80 : Nat) = if 128 ≤ hi then 128 else 0 := by
  rw [show (0x80 : Nat) = 2 ^ 7 by norm_num, Nat.and_two_pow,
    Nat.testBit_to_div_mod, show (2 : ℕ) ^ 7 = 128 by norm_num]
  by_cases hc : 128 ≤ hi
  · have h1 : hi / 128 % 2 = 1 := by omega
    simp [h1, hc]
  · have h1 : hi / 128 % 2 = 0 := by omega
    simp [h1, hc]

theorem decode_raw_eq_int16 (lo hi : Nat) (hlo : lo < 256) (hhi : hi < 256) :
    decode_raw lo hi =
      if lo + 256 * hi < 32768 then ((lo + 256 * hi : Nat) : ℤ)
      else ((lo + 256 * hi : Nat) : ℤ) - 65536 := by
  unfold decode_raw
  rw [lor_byte_eq_add lo hi hlo, and_128_eq hi hhi]
  by_cases hc : 128 ≤ hi
  · rw [if_pos hc, if_neg (by omega)]
    norm_num [Nat.shiftLeft_eq]
  · rw [if_neg hc, if_pos (by omega)]
    norm_num

/-- C2 (amended): each axis value is decoded from its low and high byte
as a little-endian 16-bit two's-complement quantity — the high byte's top
bit (bit 15 of the word) is the sign bit, applied as full 16-bit sign
extension by subtracting 65536, not as a 13-bit extension with bit 12 as
sign — and the physical output is the decoded signed integer multiplied
by the exact constant `SCALE = 0.004 * 9.80665 * 1000 = 196133/5000`. -/
theorem C2_decode_scale (lo hi : Nat) (hlo : lo < 256) (hhi : hi < 256) :
    decode_raw lo hi =
      (if lo + 256 * hi < 32768 then ((lo + 256 * hi : Nat) : ℤ)
       else ((lo + 256 * hi : Nat) : ℤ) - 65536) ∧
    -32768 ≤ decode_raw lo hi ∧ decode_raw lo hi < 32768 ∧
    sdataOf [lo, hi] = [((decode_raw lo hi : ℤ) : ℚ) * SCALE] ∧
    SCALE = 0.004 * 9.80665 * 1000 ∧ SCALE = 196133 / 5000 := by
  have he := decode_raw_eq_int16 lo hi hlo hhi
  refine ⟨he, ?_, ?_, ?_, rfl, ?_⟩
  · rw [he]; split <;> push_cast <;> omega
  · rw [he]; split <;> push_cast <;> omega
  · simp [sdataOf, List.range_succ]
  · norm_num [SCALE]

/-- C2 counterexample: on the byte pair `(0x00, 0x80)` the source decodes
-32768 (plain 16-bit two's complement), while the claimed 13-bit sign
rule — bit 12 as sign, the natural 16-bit sign contribution masked —
yields 0, so the scaled physical outputs differ as well. -/
theorem C2_counterexample :
    decode_raw 0 0x80 = -32768 ∧ decode_raw_claim13 0 0x80 = 0 ∧
    ((decode_raw 0 0x80 : ℤ) : ℚ) * SCALE
      ≠ ((decode_raw_claim13 0 0x80 : ℤ) : ℚ) * SCALE := by
  have h1 : decode_raw 0 0x80 = -32768 := by decide
  have h2 : decode_raw_claim13 0 0x80 = 0 := by decide
  refine ⟨h1, h2, ?_⟩
  rw [h1, h2]
  norm_num [SCALE]

/-- Witness for C2 at the byte pair `(0x9C, 0xFF)`, the 16-bit encoding
of -100. -/
theorem C2_witness :
    156 < 256 ∧ 255 < 256 ∧
    (decode_raw 156 255 =
       (if 156 + 256 * 255 < 32768 then ((156 + 256 * 255 : Nat) : ℤ)
        else ((156 + 256 * 255 : Nat) : ℤ) - 65536) ∧
     -32768 ≤ decode_raw 156 255 ∧ decode_raw 156 255 < 32768 ∧
     sdataOf [156, 255] = [((decode_raw 156 255 : ℤ) : ℚ) * SCALE] ∧
     SCALE = 0.004 * 9.80665 * 1000 ∧ SCALE = 196133 / 5000) :=
  ⟨by decide, by decide, C2_decode_scale 156 255 (by decide) (by decide)⟩

/-- C1: when an active stop succeeds, the code's `total_count` equals
`(end_sequence - 1) * 8` plus the number of 6-byte groups in the last
retained batch, with `end_sequence` the extended final sequence; and with
`sample_interval = (end2_time - fine_start) / total_count` and
`batch_interval = sample_interval * 8` (`fine_start` being the second
start epoch), every decoded sample of a batch with extended sequence
`seq` and in-batch index `j` is reported with timestamp
`fine_start + seq * batch_interval + j * sample_interval`. -/
theorem C1_timing_correlation (st : ADXL345State) (p : EndParams)
    (st1 : ADXL345State) (tc : ℤ) (ac : Nat)
    (rows : List (ℚ × ℚ × ℚ × ℚ))
    (h : do_end st p = (st1, DoEndResult.ok tc ac rows)) :
    tc = ((convert_sequence st.last_sequence p.sequence : ℤ) - 1) * 8
        + (((st.samples.getLast?.map fun b => b.2.length / 6).getD 0
              : Nat) : ℤ) ∧
    ∀ seq d, (seq, d) ∈ st.samples → ∀ j, j < d.length / 6 →
      ∃ x y z,
        (st.samples_start2
            + (seq : ℚ)
              * ((p.end2_time - st.samples_start2) / ((tc : ℤ) : ℚ) * 8)
            + (j : ℚ)
              * ((p.end2_time - st.samples_start2) / ((tc : ℤ) : ℚ)),
         x, y, z) ∈ rows := by
  by_cases hrun : st.query_rate = 0
  · simp [do_end, hrun] at h
  · rcases hgl : st.samples.getLast? with _ | b
    · simp only [do_end, if_neg hrun, hgl] at h
      simp at h
    · by_cases h0 : totalCountOf st p = 0
      · have htc : totalCountOf st p
            = ((convert_sequence st.last_sequence p.sequence : ℤ) - 1) * 8
              + ((b.2.length / 6 : Nat) : ℤ) := by
          simp [totalCountOf, hgl]
        have h0x : ((convert_sequence st.last_sequence p.sequence : ℤ) - 1)
            * 8 + ((b.2.length / 6 : Nat) : ℤ) = 0 := by
          rw [← htc]; exact h0
        simp only [do_end, if_neg hrun, hgl, if_pos h0x] at h
        simp at h
      · rw [do_end_eq_ok st p hrun b hgl h0] at h
        simp only [Prod.mk.injEq, DoEndResult.ok.injEq] at h
        obtain ⟨h1, h2, h3, h4⟩ := h
        subst h2
        subst h4
        constructor
        · simp [totalCountOf, hgl]
        · intro seq d hmem j hj
          refine ⟨(sdataOf d).getD (3 * j) 0, (sdataOf d).getD (3 * j + 1) 0,
            (sdataOf d).getD (3 * j + 2) 0, ?_⟩
          simp only [endRows]
          refine List.mem_flatMap.mpr ⟨(seq, d), hmem, ?_⟩
          simp only [batchRows]
          exact List.mem_map.mpr ⟨j, List.mem_range.mpr hj, rfl⟩

/-- Witness for C1: a capture with `fine_start = 10`, `end2_time = 14`,
batches with extended sequences 0 (one 6-byte sample group) and 500
(empty payload), and final raw sequence 501, so that
`total_count = (501 - 1) * 8 + 0 = 4000` and the sample interval is
exactly `4 / 4000 = 1/1000`. -/
theorem C1_witness :
    do_end ⟨100, 0, [(0, [0, 0, 0, 0, 0, 0]), (500, [])], 500, 10, 10⟩
        ⟨20, 14, 14, 0, 501⟩
      = (stoppedState
           ⟨100, 0, [(0, [0, 0, 0, 0, 0, 0]), (500, [])], 500, 10, 10⟩
           ⟨20, 14, 14, 0, 501⟩,
         DoEndResult.ok
           (totalCountOf
             ⟨100, 0, [(0, [0, 0, 0, 0, 0, 0]), (500, [])], 500, 10, 10⟩
             ⟨20, 14, 14, 0, 501⟩)
           (endRows
             ⟨100, 0, [(0, [0, 0, 0, 0, 0, 0]), (500, [])], 500, 10, 10⟩
             ⟨20, 14, 14, 0, 501⟩).length
           (endRows
             ⟨100, 0, [(0, [0, 0, 0, 0, 0, 0]), (500, [])], 500, 10, 10⟩
             ⟨20, 14, 14, 0, 501⟩)) ∧
    (totalCountOf ⟨100, 0, [(0, [0, 0, 0, 0, 0, 0]), (500, [])], 500, 10, 10⟩
        ⟨20, 14, 14, 0, 501⟩
      = ((convert_sequence 500 501 : ℤ) - 1) * 8
        + (((([((0 : Nat), [0, 0, 0, 0, 0, 0]), (500, ([] : List Nat))]
               : List (Nat × List Nat)).getLast?.map
                fun b => b.2.length / 6).getD 0 : Nat) : ℤ) ∧
     ∀ seq d,
       (seq, d) ∈ [((0 : Nat), [0, 0, 0, 0, 0, 0]), (500, ([] : List Nat))] →
       ∀ j, j < d.length / 6 →
         ∃ x y z,
           ((10 : ℚ)
               + (seq : ℚ)
                 * (((14 : ℚ) - 10)
                     / ((totalCountOf
                           ⟨100, 0, [(0, [0, 0, 0, 0, 0, 0]), (500, [])],
                             500, 10, 10⟩ ⟨20, 14, 14, 0, 501⟩ : ℤ) : ℚ) * 8)
               + (j : ℚ)
                 * (((14 : ℚ) - 10)
                     / ((totalCountOf
                           ⟨100, 0, [(0, [0, 0, 0, 0, 0, 0]), (500, [])],
                             500, 10, 10⟩ ⟨20, 14, 14, 0, 501⟩ : ℤ) : ℚ)),
            x, y, z)
             ∈ endRows
                 ⟨100, 0, [(0, [0, 0, 0, 0, 0, 0]), (500, [])], 500, 10, 10⟩
                 ⟨20, 14, 14, 0, 501⟩) :=
  ⟨do_end_eq_ok ⟨100, 0, [(0, [0, 0, 0, 0, 0, 0]), (500, [])], 500, 10, 10⟩
     ⟨20, 14, 14, 0, 501⟩ (by decide) (500, []) rfl (by decide),
   C1_timing_correlation
     ⟨100, 0, [(0, [0, 0, 0, 0, 0, 0]), (500, [])], 500, 10, 10⟩
     ⟨20, 14, 14, 0, 501⟩ _ _ _ _
     (do_end_eq_ok ⟨100, 0, [(0, [0, 0, 0, 0, 0, 0]), (500, [])], 500, 10, 10⟩
       ⟨20, 14, 14, 0, 501⟩ (by decide) (500, []) rfl (by decide))⟩

end Adxl345
